import Mathlib

/-!
Verification of the virtual-joystick input subsystem (`vjoy.cpp`) of
NXEngine-iOS.  Floating-point arithmetic of the source is modelled over
the real numbers; C `bool` tests on reals become propositions.  All other
data (finger identifiers, modes, stacks, registries) is modelled
executably.
-/

open Real

/-! # Definitions -/

/-- Normalized-space point (`struct Point` in vjoy.cpp). -/
structure Point where
  x : ℝ
  y : ℝ

instance : Add Point := ⟨fun p q => ⟨p.x + q.x, p.y + q.y⟩⟩

instance : Sub Point := ⟨fun p q => ⟨p.x - q.x, p.y - q.y⟩⟩

/-- `Point::operator*(float k)` — scalar multiplication `(k*x, k*y)`. -/
def Point.scale (p : Point) (k : ℝ) : Point := ⟨k * p.x, k * p.y⟩

/-- Unit vector at angle `θ`, as built by the `Tri` constructor via
`Point(cos(P(r)), sin(P(r)))`. -/
noncomputable def dir (θ : ℝ) : Point := ⟨Real.cos θ, Real.sin θ⟩

/-- 2-D cross product, the bilinear form underlying `Tri::sign`. -/
def cross (p q : Point) : ℝ := p.x * q.y - p.y * q.x

/-- Squared length of a point seen as a vector (`vec.x*vec.x + vec.y*vec.y`). -/
def nsq (p : Point) : ℝ := p.x * p.x + p.y * p.y

/-- Axis-aligned rectangle (`struct Rect` in vjoy.cpp). -/
structure Rect where
  x : ℝ
  y : ℝ
  w : ℝ
  h : ℝ

/-- `Rect::point_in` — verbatim translation of
`!(px < x || x + w < px || py < y || y + h < py)`. -/
def Rect.point_in (r : Rect) (p : Point) : Prop :=
  ¬(p.x < r.x ∨ r.x + r.w < p.x ∨ p.y < r.y ∨ r.y + r.h < p.y)

/-- Circular-sector triangle (`struct Tri` in vjoy.cpp). -/
structure Tri where
  a : Point
  b : Point
  c : Point

/-- The `Tri(a, size, rb, rc)` constructor: `b` and `c` are obtained by
moving distance `size` from `a` at angles `rb*π/8` and `rc*π/8`. -/
noncomputable def Tri.of (a : Point) (size rb rc : ℝ) : Tri :=
  ⟨a, (dir (rb * (π / 8))).scale size + a, (dir (rc * (π / 8))).scale size + a⟩

/-- `Tri::sign(p1, p2, p3)`. -/
def Tri.sign (p1 p2 p3 : Point) : ℝ :=
  (p1.x - p3.x) * (p2.y - p3.y) - (p2.x - p3.x) * (p1.y - p3.y)

/-- `Tri::in(pt)` — `b1 == b2 && b2 == b3` where `bi` are the `< 0` tests of
the three edge signs.  (`in` is a Lean keyword, hence the name `inside`.) -/
def Tri.inside (t : Tri) (pt : Point) : Prop :=
  ((Tri.sign pt t.a t.b < 0) ↔ (Tri.sign pt t.b t.c < 0)) ∧
  ((Tri.sign pt t.b t.c < 0) ↔ (Tri.sign pt t.c t.a < 0))

/-- `Pad::seg_center` = (0.82, 0.82). -/
noncomputable def segCenter : Point := ⟨0.82, 0.82⟩

/-- `Pad::seg_size` = 0.13. -/
noncomputable def segSize : ℝ := 0.13

/-- The `rb` angle argument (in units of π/8) of `Pad::segments[j]`. -/
noncomputable def rbv : Fin 8 → ℝ
  | 0 => -1 | 1 => 1 | 2 => 3 | 3 => 5 | 4 => 7 | 5 => -7 | 6 => -5 | 7 => -3

/-- The `rc` angle argument (in units of π/8) of `Pad::segments[j]`. -/
noncomputable def rcv : Fin 8 → ℝ
  | 0 => 1 | 1 => 3 | 2 => 5 | 3 => 7 | 4 => -7 | 5 => -5 | 6 => -3 | 7 => -1

/-- `Pad::segments` — the eight sector triangles, exactly as the source
initializes them: `Tri(seg_center, seg_size, -1, 1)`, `(1,3)`, `(3,5)`,
`(5,7)`, `(7,-7)`, `(-7,-5)`, `(-5,-3)`, `(-3,-1)`. -/
noncomputable def segments (j : Fin 8) : Tri :=
  Tri.of segCenter segSize (rbv j) (rcv j)

/-- The radius gate at the start of `Pad::update_buttons`: the function
proceeds unless `r2 > seg_size*seg_size`. -/
noncomputable def inWheel (p : Point) : Prop :=
  ¬(segSize * segSize < nsq (p - segCenter))

/-- `inputs[0]` assigned by `Pad::update_buttons`:
`segments[3].in(p) || segments[4].in(p) || segments[5].in(p)`. -/
noncomputable def wheelLeft (p : Point) : Prop :=
  (segments 3).inside p ∨ (segments 4).inside p ∨ (segments 5).inside p

/-- `inputs[1]`: `segments[7].in(p) || segments[0].in(p) || segments[1].in(p)`. -/
noncomputable def wheelRight (p : Point) : Prop :=
  (segments 7).inside p ∨ (segments 0).inside p ∨ (segments 1).inside p

/-- `inputs[2]`: `segments[5].in(p) || segments[6].in(p) || segments[7].in(p)`. -/
noncomputable def wheelUp (p : Point) : Prop :=
  (segments 5).inside p ∨ (segments 6).inside p ∨ (segments 7).inside p

/-- `inputs[3]`: `segments[1].in(p) || segments[2].in(p) || segments[3].in(p)`. -/
noncomputable def wheelDown (p : Point) : Prop :=
  (segments 1).inside p ∨ (segments 2).inside p ∨ (segments 3).inside p

/-- `VKeys::vkeys` — the table of 26 button rectangles (INPUT_COUNT = 26);
entries with negative `x` are the "no on-screen zone" sentinels. -/
noncomputable def vkeys : Fin 26 → Rect
  | 0 => ⟨-1, 0.8, 0.1, 0.1⟩      -- LEFTKEY
  | 1 => ⟨-1, 0.8, 0.1, 0.1⟩      -- RIGHTKEY
  | 2 => ⟨-1, 0.7, 0.1, 0.1⟩      -- UPKEY
  | 3 => ⟨-1, 0.9, 0.1, 0.1⟩      -- DOWNKEY
  | 4 => ⟨0.00, 0.8, 0.14, 0.2⟩   -- JUMPKEY
  | 5 => ⟨0.15, 0.8, 0.14, 0.2⟩   -- FIREKEY
  | 6 => ⟨0.00, 0.55, 0.1, 0.1⟩   -- PREVWPNKEY
  | 7 => ⟨0.15, 0.55, 0.1, 0.1⟩   -- NEXTWPNKEY
  | 8 => ⟨0.00, 0.0, 0.1, 0.1⟩    -- INVENTORYKEY
  | 9 => ⟨0.15, 0.0, 0.1, 0.1⟩    -- MAPSYSTEMKEY
  | 10 => ⟨0.40, 0.0, 0.1, 0.1⟩   -- ESCKEY
  | 11 => ⟨0.55, 0.0, 0.1, 0.1⟩   -- F1KEY
  | 12 => ⟨0.70, 0.0, 0.1, 0.1⟩   -- F2KEY
  | 13 => ⟨0.85, 0.0, 0.1, 0.1⟩   -- F3KEY
  | _ => ⟨-1, -1, -1, -1⟩         -- F4KEY .. DEBUG_FLY_KEY

/-- Index of FIREKEY in the `inputs` array. -/
def FIREKEY : Fin 26 := 5

/-- One rectangle test of the loop in `VKeys::update_buttons`: the flag is
set when the entry is not a sentinel (`vkeys[i].x < 0` skips) and the
point is inside. -/
noncomputable def rectHit (i : Fin 26) (p : Point) : Prop :=
  ¬((vkeys i).x < 0) ∧ (vkeys i).point_in p

/-- The logical-input flag array together with the wheel's `pressed` array,
modelled as propositions (the source uses `bool`s derived from float
comparisons). -/
structure PadState where
  inputs : Fin 26 → Prop
  pressed : Fin 8 → Prop

/-- The zeroed flag state produced by the two `memset`s in
`VJoy::ProcessInput`. -/
def padZero : PadState := ⟨fun _ => False, fun _ => False⟩

/-- The conditional write of `Pad::update_buttons`: when the point passes
the radius gate the flag is assigned the fresh value, otherwise the early
`return` leaves the old value. -/
noncomputable def wgate (p : Point) (nw old : Prop) : Prop :=
  (inWheel p ∧ nw) ∨ (¬inWheel p ∧ old)

/-- `Pad::update_buttons(p)` acting on the flag state: `inputs[0..3]` are
assigned the wheel values and `pressed[j]` is assigned `segments[j].in(p)`,
all guarded by the radius gate. -/
noncomputable def padWheelUpdate (p : Point) (st : PadState) : PadState :=
  ⟨fun i =>
      if (i : ℕ) = 0 then wgate p (wheelLeft p) (st.inputs i)
      else if (i : ℕ) = 1 then wgate p (wheelRight p) (st.inputs i)
      else if (i : ℕ) = 2 then wgate p (wheelUp p) (st.inputs i)
      else if (i : ℕ) = 3 then wgate p (wheelDown p) (st.inputs i)
      else st.inputs i,
   fun j => wgate p ((segments j).inside p) (st.pressed j)⟩

/-- `VKeys::update_buttons(p)`: OR every non-sentinel rectangle hit into
`inputs`, then run `Pad::update_buttons(p)`. -/
noncomputable def vkeysUpdateButtons (p : Point) (st : PadState) : PadState :=
  padWheelUpdate p ⟨fun i => st.inputs i ∨ rectHit i p, st.pressed⟩

/-- The dispatch loop of `VJoy::ProcessInput` over a list of finger
positions, starting from the zeroed flag state. -/
noncomputable def processList (l : List Point) : PadState :=
  l.foldl (fun st p => vkeysUpdateButtons p st) padZero

/-- The flags finger position `p` would set when dispatched alone on a
zeroed array (through the default `VKeys` pad). -/
noncomputable def singleFlags (p : Point) (i : Fin 26) : Prop :=
  (processList [p]).inputs i

/-- `VjoyMode::Mode` — the tri-state touch mode. -/
inductive VjoyMode where
  | etouch
  | egesture
  | eboth
deriving DecidableEq

/-- The game-mode enumeration (`game_modes.h` is outside `src/`; the
constructor order mirrors the `pads[NUM_GAMEMODES]` table in vjoy.cpp:
none, normal, inventory, map-system, island, credits, intro, title,
paused, options). -/
inductive GameMode where
  | gmNone
  | gmNormal
  | gmInventory
  | gmMapSystem
  | gmIsland
  | gmCredits
  | gmIntro
  | gmTitle
  | gmPaused
  | gmOptions
deriving DecidableEq

/-- The `Settings::Tap::Place` context keys used by vjoy.cpp
(`settings.h` is outside `src/`; the keys are those referenced by the
source). -/
inductive TapPlace where
  | eInventory
  | eMapSystem
  | eMovies
  | eTitle
  | ePause
  | eOptions
  | eSaveLoad
  | eIngameDialog
deriving DecidableEq

/-- The recognized `Settings::Tap` values `ETAP`, `EPAD`, `EBOTH`. -/
inductive TapVal where
  | etap
  | epad
  | eboth
deriving DecidableEq

/-- A raw settings cell as consumed by `VjoyMode::getModeFromSettings`: in
C++ the stored enum may hold a value outside the three declared
enumerators, which the switch does not handle. -/
inductive TapCell where
  | val (v : TapVal)
  | unrecognized

/-- `VjoyMode::getModeFromSettings` with the `assert(false)` on the
fall-through modelled as a fatal error (`Except.error`): ETAP ↦ EGESTURE,
EPAD ↦ ETOUCH, EBOTH ↦ EBOTH, anything else trips the assertion. -/
def getModeFromSettings : TapCell → Except Unit VjoyMode
  | .val .etap => .ok .egesture
  | .val .epad => .ok .etouch
  | .val .eboth => .ok .eboth
  | .unrecognized => .error ()

/-- The same lookup restricted to well-formed settings tables (the
assertion is unreachable then); used by the state machine. -/
def modeFromValid : TapVal → VjoyMode
  | .etap => .egesture
  | .epad => .etouch
  | .eboth => .eboth

/-- The modal overlay screen kinds (`SpecScreens`). -/
inductive SpecScreens where
  | eTextBox
  | eSaveLoad
  | eYesNo
  | eStageSelect1
  | eStageSelect2

/-- A context-stack frame (`state_t` inside `specScreenChanged`):
{touch mode, game mode, that pad's disable_draw, normal pad's
textbox_mode}. -/
structure Frame where
  mode : VjoyMode
  gm : GameMode
  gmDraw : Bool
  tb : Bool

/-- The process-wide mutable state of vjoy.cpp: `vjoy_mode` (plus the last
argument passed to `toggleGestureRecognizer`), `vjoy_enabled`,
`lastFingerPos` (as a key-sorted association list, like `std::map`),
`ignoredFingers`, the cached device resolution `xres/yres` (`none` models
the `-1` sentinel), the current game mode (read via `getGamemode()`), the
settings table, the per-pad `disable_draw` flags, the normal pad's
`textbox_mode`, the context stack, the logical-flag arrays and the tap
buffer of the gesture observer. -/
structure S where
  mode : VjoyMode
  recognizer : Bool
  enabled : Bool
  registry : List (ℕ × Point)
  ignored : List ℕ
  res : Option (ℝ × ℝ)
  gamemode : GameMode
  settings : TapPlace → TapVal
  disableDraw : GameMode → Bool
  textbox : Bool
  stack : List Frame
  pad : PadState
  taps : List Point

/-- `VjoyMode::setMode`: no-op when unchanged; otherwise store the mode,
toggle the gesture recognizer (enabled iff mode ≠ ETOUCH) and clear the
finger registry when entering EGESTURE.  The `CONFIG_USE_TAPS` build
configuration guarding the toggle and the clear is taken as enabled, as
the spec describes. -/
def setMode (m : VjoyMode) (s : S) : S :=
  if m = s.mode then s
  else { s with mode := m,
                recognizer := decide (m ≠ VjoyMode.etouch),
                registry := if m = VjoyMode.egesture then [] else s.registry }

/-- `std::set::insert` on the ignore set. -/
def insertIgn (i : ℕ) (l : List ℕ) : List ℕ :=
  if i ∈ l then l else i :: l

/-- `VJoy::ignoreAllCurrentFingers`: move every tracked finger id into the
ignore set and clear the registry. -/
def ignoreAllS (s : S) : S :=
  { s with ignored := s.registry.foldl (fun ig e => insertIgn e.1 ig) s.ignored,
           registry := [] }

/-- `std::map` upsert, keeping keys in ascending order. -/
def upsert (id : ℕ) (p : Point) : List (ℕ × Point) → List (ℕ × Point)
  | [] => [(id, p)]
  | e :: t =>
      if id < e.1 then (id, p) :: e :: t
      else if id = e.1 then (id, p) :: t
      else e :: upsert id p t

/-- `std::map::erase` by key. -/
def eraseReg (id : ℕ) (l : List (ℕ × Point)) : List (ℕ × Point) :=
  l.filter fun e => decide (e.1 ≠ id)

/-- `std::set::erase`. -/
def eraseIgn (id : ℕ) (l : List ℕ) : List ℕ :=
  l.filter fun i => decide (i ≠ id)

/-- The tail of `VJoy::InjectInputEvent` for a move/down sample once the
resolution `r` is known: an ignored finger id is not inserted; otherwise
the registry is upserted with the normalized position. -/
noncomputable def applySample (id : ℕ) (raw : Point) (r : ℝ × ℝ) (s : S) : S :=
  if id ∈ s.ignored then s
  else { s with registry := upsert id ⟨raw.x / r.1, raw.y / r.2⟩ s.registry }

/-- `VJoy::InjectInputEvent` on a move/down sample: dropped when disabled
or in EGESTURE mode; the device resolution is resolved lazily (`resQ` is
the reply of `SDL_GetTouch`, `none` when unavailable — the sample is then
dropped); note the resolution is cached even when the finger itself is
ignored. -/
noncomputable def injectMoveS (id : ℕ) (raw : Point) (resQ : Option (ℝ × ℝ)) (s : S) : S :=
  if s.enabled then
    if s.mode = VjoyMode.egesture then s
    else
      match s.res with
      | some r => applySample id raw r s
      | none =>
          match resQ with
          | some r => applySample id raw r { s with res := some r }
          | none => s
  else s

/-- `VJoy::InjectInputEvent` on SDL_FINGERUP: before any mode or
resolution check, erase the id from the registry and from the ignore
set. -/
def injectUpS (id : ℕ) (s : S) : S :=
  if s.enabled then
    { s with registry := eraseReg id s.registry, ignored := eraseIgn id s.ignored }
  else s

/-- `NormalModePad::update_buttons`: in text-box mode unconditionally
assert FIREKEY (bypassing all hit-testing), otherwise the default
`VKeys::update_buttons`. -/
noncomputable def normalUpdate (tb : Bool) (p : Point) (st : PadState) : PadState :=
  if tb then { st with inputs := fun i => if i = FIREKEY then True else st.inputs i }
  else vkeysUpdateButtons p st

/-- `update_buttons` of the pad selected by the game mode: normal uses its
text-box-aware update; paused and options forward to the normal pad
(`ppads[GM_NORMAL]->update_buttons`); every other pad uses the default
`VKeys::update_buttons`. -/
noncomputable def padUpdateButtons : GameMode → Bool → Point → PadState → PadState
  | .gmNormal => fun tb p st => normalUpdate tb p st
  | .gmPaused => fun tb p st => normalUpdate tb p st
  | .gmOptions => fun tb p st => normalUpdate tb p st
  | _ => fun _ p st => vkeysUpdateButtons p st

/-- `VJoy::ProcessInput`: when enabled, zero both flag arrays and dispatch
every tracked finger position through the active mode pad. -/
noncomputable def processInput (s : S) : S :=
  if s.enabled then
    { s with pad := s.registry.foldl (fun st e => padUpdateButtons s.gamemode s.textbox e.2 st) padZero }
  else s

/-- `VJoy::PreProcessInput`: flush the gesture observer's tap buffer. -/
def preProcessS (s : S) : S :=
  if s.enabled then { s with taps := [] } else s

/-- `GestureObserver::tap` — the platform bridge appends a tap location. -/
noncomputable def tapS (x y : ℝ) (s : S) : S :=
  { s with taps := s.taps ++ [⟨x, y⟩] }

/-- The `state_t::push` snapshot. -/
def pushFrame (s : S) : Frame :=
  ⟨s.mode, s.gamemode, s.disableDraw s.gamemode, s.textbox⟩

/-- The `state_t::pop` restore: `setMode(mode)`, restore that game mode's
`disable_draw` and the normal pad's `textbox_mode`. -/
def popFrame (f : Frame) (s : S) : S :=
  let s1 := setMode f.mode s
  { s1 with disableDraw := fun g => if g = f.gm then f.gmDraw else s1.disableDraw g,
            textbox := f.tb }

/-- The per-screen-kind configuration switch at the end of
`specScreenChanged` (enter path). -/
def applyScreen (sc : SpecScreens) (s : S) : S :=
  match sc with
  | .eTextBox =>
      let s1 := setMode (modeFromValid (s.settings .eIngameDialog)) s
      { s1 with textbox := decide (s1.mode ≠ VjoyMode.etouch) }
  | .eSaveLoad =>
      let s1 := setMode (modeFromValid (s.settings .eSaveLoad)) s
      { s1 with textbox := false }
  | .eYesNo =>
      let s1 := setMode (modeFromValid (s.settings .eIngameDialog)) s
      { s1 with textbox := false }
  | .eStageSelect1 =>
      let s1 := setMode (modeFromValid (s.settings .eIngameDialog)) s
      { s1 with textbox := false }
  | .eStageSelect2 =>
      let s1 := setMode (modeFromValid (s.settings .eIngameDialog)) s
      { s1 with textbox := decide (s1.mode ≠ VjoyMode.etouch) }

/-- `VJoy::ModeAware::specScreenChanged`: always `ignoreAllCurrentFingers`
first; on enter push the current frame and apply the per-screen
configuration; on leave pop and restore — a pop on an empty stack
returns immediately after the ignore step. -/
def specScreenChanged (sc : SpecScreens) (enter : Bool) (s : S) : S :=
  let s1 := ignoreAllS s
  if enter then
    applyScreen sc { s1 with stack := pushFrame s1 :: s1.stack }
  else
    match s1.stack with
    | [] => s1
    | f :: rest => popFrame f { s1 with stack := rest }

/-- `on_enter` of each mode pad: none/normal hardcode ETOUCH; island and
credits inherit `DefaultControl::on_enter`, which is empty; the rest look
their context up in the settings table. -/
def onEnter : GameMode → S → S
  | .gmNone => fun s => setMode .etouch s
  | .gmNormal => fun s => setMode .etouch s
  | .gmInventory => fun s => setMode (modeFromValid (s.settings .eInventory)) s
  | .gmMapSystem => fun s => setMode (modeFromValid (s.settings .eMapSystem)) s
  | .gmIsland => fun s => s
  | .gmCredits => fun s => s
  | .gmIntro => fun s => setMode (modeFromValid (s.settings .eMovies)) s
  | .gmTitle => fun s => setMode (modeFromValid (s.settings .eTitle)) s
  | .gmPaused => fun s => setMode (modeFromValid (s.settings .ePause)) s
  | .gmOptions => fun s => setMode (modeFromValid (s.settings .eOptions)) s

/-- `VJoy::ModeAware::gameModeChanged`: run the new pad's `on_enter`, then
ignore all current fingers. -/
def gameModeChangedS (gm : GameMode) (s : S) : S :=
  ignoreAllS (onEnter gm { s with gamemode := gm })

/-- The externally triggerable operations of the subsystem. -/
inductive Step where
  | injectMove (id : ℕ) (raw : Point) (resQ : Option (ℝ × ℝ))
  | injectUpEv (id : ℕ)
  | processEv
  | preProcessEv
  | tapEv (x y : ℝ)
  | setModeEv (m : VjoyMode)
  | screenEv (sc : SpecScreens) (enter : Bool)
  | gameModeEv (gm : GameMode)
  | ignoreAllEv
  | initEv
  | destroyEv

/-- One step of the subsystem. -/
noncomputable def step : Step → S → S
  | .injectMove id raw resQ => injectMoveS id raw resQ
  | .injectUpEv id => injectUpS id
  | .processEv => processInput
  | .preProcessEv => preProcessS
  | .tapEv x y => tapS x y
  | .setModeEv m => setMode m
  | .screenEv sc en => specScreenChanged sc en
  | .gameModeEv gm => gameModeChangedS gm
  | .ignoreAllEv => ignoreAllS
  | .initEv => fun s => { s with enabled := true }
  | .destroyEv => fun s => { s with enabled := false }

/-- A trace of steps. -/
noncomputable def run (l : List Step) (s : S) : S :=
  l.foldl (fun s e => step e s) s

/-- A concrete base state: touch mode, enabled, empty registry and stack. -/
def sBase : S :=
  { mode := VjoyMode.etouch, recognizer := false, enabled := true,
    registry := [], ignored := [], res := none,
    gamemode := GameMode.gmNormal, settings := fun _ => TapVal.epad,
    disableDraw := fun _ => false, textbox := false, stack := [],
    pad := padZero, taps := [] }

/-- Base state with one tracked finger (id 1). -/
def cs5 : S := { sBase with registry := [(1, ⟨0, 0⟩)] }

/-- Base state with two tracked fingers. -/
def s7w : S := { sBase with registry := [(1, ⟨0, 0⟩), (2, ⟨1, 1⟩)] }

/-- Base state with a tracked finger (id 3) that is also ignored. -/
def s10w : S := { sBase with registry := [(3, ⟨0, 0⟩)], ignored := [3] }

/-- The invariant of claim C8 for a finger id: it is in the ignore set and
absent from the finger registry. -/
def KeptOut (id : ℕ) (s : S) : Prop :=
  id ∈ s.ignored ∧ ¬ id ∈ s.registry.map Prod.fst

/-- Counterexample finger A: 0.02 from the wheel center at angle `4·π/8`
(straight "down" on screen, inside sector 2). -/
noncomputable def ptA : Point := (dir (4 * (π / 8))).scale 0.02 + segCenter

/-- Counterexample finger B: 0.02 from the wheel center at angle `0`
(straight "right", inside sector 0). -/
noncomputable def ptB : Point := (dir (0 * (π / 8))).scale 0.02 + segCenter

/-- Concrete state in normal mode tracking fingers A (id 1) and B (id 2). -/
noncomputable def s1c : S := { sBase with registry := [(1, ptA), (2, ptB)] }

/-- A point at distance `r` along the boundary ray shared by sectors `k`
and `k+1` (the ray at angle `rcv k * π/8`, an odd multiple of 22.5°). -/
noncomputable def rayPoint (k : Fin 8) (r : ℝ) : Point :=
  (dir (rcv k * (π / 8))).scale r + segCenter

/-- `NXColor` (r, g, b). -/
structure NXColor where
  r : ℕ
  g : ℕ
  b : ℕ

/-- `col_released` = (0xff, 0xcf, 0x33). -/
def col_released : NXColor := ⟨0xff, 0xcf, 0x33⟩

/-- `col_pressed` = (0xff, 0x00, 0x00). -/
def col_pressed : NXColor := ⟨0xff, 0x00, 0x00⟩

/-- Modelled from the spec: the screen pixel dimensions provided by the
rendering collaborator (`Graphics::SCREEN_WIDTH/HEIGHT`, from
graphics.h which is outside `src/`; NXEngine's native resolution). -/
noncomputable def SCREEN_WIDTH : ℝ := 320

/-- Modelled from the spec: see `SCREEN_WIDTH`. -/
noncomputable def SCREEN_HEIGHT : ℝ := 240

/-- A rendering primitive (`Graphics::DrawLine`). -/
inductive Prim where
  | line (x1 y1 x2 y2 : ℤ) (c : NXColor)

/-- The pressed/released colour choice, as a relation (the flag is a
proposition over the reals). -/
def colorIs (cond : Prop) (c : NXColor) : Prop :=
  (cond ∧ c = col_pressed) ∨ (¬ cond ∧ c = col_released)

/-- The four lines of `Rect::draw_thin_rect` after `to_screen_coord`. -/
noncomputable def thinRectSet (rc : Rect) (c : NXColor) : Set Prim :=
  {pr | pr = Prim.line ⌊SCREEN_WIDTH * rc.x⌋ ⌊SCREEN_HEIGHT * rc.y⌋
               ⌊SCREEN_WIDTH * (rc.x + rc.w)⌋ ⌊SCREEN_HEIGHT * rc.y⌋ c ∨
        pr = Prim.line ⌊SCREEN_WIDTH * rc.x⌋ ⌊SCREEN_HEIGHT * (rc.y + rc.h)⌋
               ⌊SCREEN_WIDTH * (rc.x + rc.w)⌋ ⌊SCREEN_HEIGHT * (rc.y + rc.h)⌋ c ∨
        pr = Prim.line ⌊SCREEN_WIDTH * rc.x⌋ ⌊SCREEN_HEIGHT * rc.y⌋
               ⌊SCREEN_WIDTH * rc.x⌋ ⌊SCREEN_HEIGHT * (rc.y + rc.h)⌋ c ∨
        pr = Prim.line ⌊SCREEN_WIDTH * (rc.x + rc.w)⌋ ⌊SCREEN_HEIGHT * rc.y⌋
               ⌊SCREEN_WIDTH * (rc.x + rc.w)⌋ ⌊SCREEN_HEIGHT * (rc.y + rc.h)⌋ c}

/-- `Pad::draw`: the two rim edges of every sector, coloured by its
pressed flag. -/
noncomputable def padDrawSet (pressed : Fin 8 → Prop) : Set Prim :=
  {pr | ∃ j : Fin 8, ∃ c : NXColor, colorIs (pressed j) c ∧
        (pr = Prim.line ⌊segCenter.x * SCREEN_WIDTH⌋ ⌊segCenter.y * SCREEN_HEIGHT⌋
                ⌊(segments j).b.x * SCREEN_WIDTH⌋ ⌊(segments j).b.y * SCREEN_HEIGHT⌋ c ∨
         pr = Prim.line ⌊(segments j).b.x * SCREEN_WIDTH⌋ ⌊(segments j).b.y * SCREEN_HEIGHT⌋
                ⌊(segments j).c.x * SCREEN_WIDTH⌋ ⌊(segments j).c.y * SCREEN_HEIGHT⌋ c)}

/-- `VKeys::draw`: every non-sentinel rectangle's outline in its
pressed/released colour, then the wheel. -/
noncomputable def vkeysDrawSet (st : PadState) : Set Prim :=
  {pr | ∃ i : Fin 26, ¬((vkeys i).x < 0) ∧
        ∃ c : NXColor, colorIs (st.inputs i) c ∧ pr ∈ thinRectSet (vkeys i) c}
  ∪ padDrawSet st.pressed

/-- `DefaultControl::draw`: nothing in gesture-only mode, otherwise
`VKeys::draw`. -/
noncomputable def defaultDraw (s : S) : Set Prim :=
  {pr | s.mode ≠ VjoyMode.egesture ∧ pr ∈ vkeysDrawSet s.pad}

/-- The normal pad's `draw` — its override is commented out in the
source, so it is the inherited default. -/
noncomputable def normalPadDraw (s : S) : Set Prim := defaultDraw s

/-- The `draw` of the pad selected by game mode: paused and options
forward to the normal pad (`ppads[GM_NORMAL]->draw()`); all other pads
use the inherited default. -/
noncomputable def padDraw : GameMode → S → Set Prim
  | .gmPaused => fun s => normalPadDraw s
  | .gmOptions => fun s => normalPadDraw s
  | .gmNormal => fun s => normalPadDraw s
  | _ => fun s => defaultDraw s

/-! # Theorems -/

@[simp] lemma Point.add_x (p q : Point) : (p + q).x = p.x + q.x := rfl

@[simp] lemma Point.add_y (p q : Point) : (p + q).y = p.y + q.y := rfl

@[simp] lemma Point.sub_x (p q : Point) : (p - q).x = p.x - q.x := rfl

@[simp] lemma Point.sub_y (p q : Point) : (p - q).y = p.y - q.y := rfl

@[simp] lemma Point.scale_x (p : Point) (k : ℝ) : (p.scale k).x = k * p.x := rfl

@[simp] lemma Point.scale_y (p : Point) (k : ℝ) : (p.scale k).y = k * p.y := rfl

@[simp] lemma dir_x (θ : ℝ) : (dir θ).x = Real.cos θ := rfl

@[simp] lemma dir_y (θ : ℝ) : (dir θ).y = Real.sin θ := rfl

lemma sign_edge_ab (a : Point) (s rb rc : ℝ) (p : Point) :
    Tri.sign p (Tri.of a s rb rc).a (Tri.of a s rb rc).b
      = s * cross (dir (rb * (π / 8))) (p - a) := by
  simp only [Tri.of, Tri.sign, cross, Point.add_x, Point.add_y, Point.sub_x,
    Point.sub_y, Point.scale_x, Point.scale_y, dir_x, dir_y]
  ring

lemma sign_edge_ca (a : Point) (s rb rc : ℝ) (p : Point) :
    Tri.sign p (Tri.of a s rb rc).c (Tri.of a s rb rc).a
      = s * cross (p - a) (dir (rc * (π / 8))) := by
  simp only [Tri.of, Tri.sign, cross, Point.add_x, Point.add_y, Point.sub_x,
    Point.sub_y, Point.scale_x, Point.scale_y, dir_x, dir_y]
  ring

lemma sign_edge_bc (a : Point) (s rb rc : ℝ) (p : Point) :
    Tri.sign p (Tri.of a s rb rc).b (Tri.of a s rb rc).c
      = s * (s * Real.sin ((rc - rb) * (π / 8))
              - cross (dir (rb * (π / 8))) (p - a)
              - cross (p - a) (dir (rc * (π / 8)))) := by
  have harg : (rc - rb) * (π / 8) = rc * (π / 8) - rb * (π / 8) := by ring
  rw [harg, Real.sin_sub]
  simp only [Tri.of, Tri.sign, cross, Point.add_x, Point.add_y, Point.sub_x,
    Point.sub_y, Point.scale_x, Point.scale_y, dir_x, dir_y]
  ring

/-- Characterization of `Tri::in` for a sector triangle with apex `a`, leg
length `s > 0` and leg angles `rb*π/8`, `rc*π/8` whose oriented span has
positive sine: the point is inside iff it is (weakly) on the
counter-clockwise side of both legs and within the chord line. -/
theorem Tri.inside_iff (a : Point) (s rb rc : ℝ) (p : Point)
    (hs : 0 < s) (hK : 0 < Real.sin ((rc - rb) * (π / 8))) :
    (Tri.of a s rb rc).inside p ↔
      (0 ≤ cross (dir (rb * (π / 8))) (p - a) ∧
       0 ≤ cross (p - a) (dir (rc * (π / 8))) ∧
       cross (dir (rb * (π / 8))) (p - a) + cross (p - a) (dir (rc * (π / 8)))
         ≤ s * Real.sin ((rc - rb) * (π / 8))) := by
  unfold Tri.inside
  rw [sign_edge_ab, sign_edge_bc, sign_edge_ca]
  set L := cross (dir (rb * (π / 8))) (p - a) with hLdef
  set R := cross (p - a) (dir (rc * (π / 8))) with hRdef
  set K := Real.sin ((rc - rb) * (π / 8)) with hKdef
  have neg_factor : ∀ t : ℝ, s * t < 0 → t < 0 := by
    intro t ht
    by_contra h0
    push_neg at h0
    exact absurd ht (not_lt.mpr (mul_nonneg hs.le h0))
  have hsK : 0 < s * K := mul_pos hs hK
  constructor
  · rintro ⟨h1, h2⟩
    by_cases hL : L < 0
    · have hb2 := h1.mp (mul_neg_of_pos_of_neg hs hL)
      have hb3 := h2.mp hb2
      have hR := neg_factor _ hb3
      have hM := neg_factor _ hb2
      linarith
    · push_neg at hL
      by_cases hR : R < 0
      · have hb2 := h2.mpr (mul_neg_of_pos_of_neg hs hR)
        have hb1 := h1.mpr hb2
        have := neg_factor _ hb1
        linarith
      · push_neg at hR
        refine ⟨hL, hR, ?_⟩
        by_contra hsum
        push_neg at hsum
        have hb2 : s * (s * K - L - R) < 0 :=
          mul_neg_of_pos_of_neg hs (by linarith)
        have hb3 := h2.mp hb2
        have := neg_factor _ hb3
        linarith
  · rintro ⟨hL, hR, hsum⟩
    have nb1 : ¬(s * L < 0) := not_lt.mpr (mul_nonneg hs.le hL)
    have nb3 : ¬(s * R < 0) := not_lt.mpr (mul_nonneg hs.le hR)
    have nb2 : ¬(s * (s * K - L - R) < 0) :=
      not_lt.mpr (mul_nonneg hs.le (by linarith))
    exact ⟨iff_of_false nb1 nb2, iff_of_false nb2 nb3⟩

lemma cross_dir_dir_scale (α β r : ℝ) :
    cross (dir α) ((dir β).scale r) = r * Real.sin (β - α) := by
  simp only [cross, dir_x, dir_y, Point.scale_x, Point.scale_y, Real.sin_sub]
  ring

lemma cross_scale_dir (α β r : ℝ) :
    cross ((dir α).scale r) (dir β) = r * Real.sin (β - α) := by
  simp only [cross, dir_x, dir_y, Point.scale_x, Point.scale_y, Real.sin_sub]
  ring

lemma nsq_dir_scale (θ r : ℝ) : nsq ((dir θ).scale r) = r * r := by
  have h := Real.sin_sq_add_cos_sq θ
  simp only [nsq, Point.scale_x, Point.scale_y, dir_x, dir_y]
  nlinarith [h]

/-- Positivity of `sin (n*π/8)` for `0 < n < 8`. -/
lemma sin_eighth_pos (n : ℝ) (h1 : 0 < n) (h2 : n < 8) :
    0 < Real.sin (n * (π / 8)) := by
  apply Real.sin_pos_of_pos_of_lt_pi
  · have := Real.pi_pos
    nlinarith
  · have := Real.pi_pos
    nlinarith

/-- Negativity of `sin (n*π/8)` for `-8 < n < 0`. -/
lemma sin_eighth_neg (n : ℝ) (h1 : -8 < n) (h2 : n < 0) :
    Real.sin (n * (π / 8)) < 0 := by
  have h : n * (π / 8) = -(-n * (π / 8)) := by ring
  rw [h, Real.sin_neg, neg_neg_iff_pos]
  exact sin_eighth_pos (-n) (by linarith) (by linarith)

/-- Periodicity reduction: `sin ((n-16)*π/8) = sin (n*π/8)`. -/
lemma sin_eighth_sub_sixteen (n : ℝ) :
    Real.sin ((n - 16) * (π / 8)) = Real.sin (n * (π / 8)) := by
  have h : n * (π / 8) = (n - 16) * (π / 8) + 2 * π := by ring
  rw [h, Real.sin_periodic]

lemma setMode_mode (m : VjoyMode) (s : S) : (setMode m s).mode = m := by
  unfold setMode
  split
  next h => exact h.symm
  next => rfl

lemma setMode_enabled (m : VjoyMode) (s : S) : (setMode m s).enabled = s.enabled := by
  unfold setMode
  split <;> rfl

lemma setMode_stack (m : VjoyMode) (s : S) : (setMode m s).stack = s.stack := by
  unfold setMode
  split <;> rfl

lemma setMode_textbox (m : VjoyMode) (s : S) : (setMode m s).textbox = s.textbox := by
  unfold setMode
  split <;> rfl

lemma setMode_disableDraw (m : VjoyMode) (s : S) :
    (setMode m s).disableDraw = s.disableDraw := by
  unfold setMode
  split <;> rfl

lemma setMode_gamemode (m : VjoyMode) (s : S) : (setMode m s).gamemode = s.gamemode := by
  unfold setMode
  split <;> rfl

lemma setMode_settings (m : VjoyMode) (s : S) : (setMode m s).settings = s.settings := by
  unfold setMode
  split <;> rfl

lemma setMode_taps (m : VjoyMode) (s : S) : (setMode m s).taps = s.taps := by
  unfold setMode
  split <;> rfl

lemma setMode_pad (m : VjoyMode) (s : S) : (setMode m s).pad = s.pad := by
  unfold setMode
  split <;> rfl

lemma setMode_res (m : VjoyMode) (s : S) : (setMode m s).res = s.res := by
  unfold setMode
  split <;> rfl

lemma setMode_ignored (m : VjoyMode) (s : S) : (setMode m s).ignored = s.ignored := by
  unfold setMode
  split <;> rfl

lemma ignoreAllS_mode (s : S) : (ignoreAllS s).mode = s.mode := rfl

lemma ignoreAllS_stack (s : S) : (ignoreAllS s).stack = s.stack := rfl

lemma ignoreAllS_textbox (s : S) : (ignoreAllS s).textbox = s.textbox := rfl

lemma ignoreAllS_disableDraw (s : S) : (ignoreAllS s).disableDraw = s.disableDraw := rfl

lemma ignoreAllS_gamemode (s : S) : (ignoreAllS s).gamemode = s.gamemode := rfl

lemma applyScreen_stack (sc : SpecScreens) (s : S) :
    (applyScreen sc s).stack = s.stack := by
  cases sc <;> simp [applyScreen, setMode_stack]

lemma applyScreen_disableDraw (sc : SpecScreens) (s : S) :
    (applyScreen sc s).disableDraw = s.disableDraw := by
  cases sc <;> simp [applyScreen, setMode_disableDraw]

lemma applyScreen_gamemode (sc : SpecScreens) (s : S) :
    (applyScreen sc s).gamemode = s.gamemode := by
  cases sc <;> simp [applyScreen, setMode_gamemode]

lemma popFrame_mode (f : Frame) (s : S) : (popFrame f s).mode = f.mode := by
  simp [popFrame, setMode_mode]

lemma popFrame_textbox (f : Frame) (s : S) : (popFrame f s).textbox = f.tb := by
  simp [popFrame]

lemma popFrame_disableDraw (f : Frame) (s : S) :
    (popFrame f s).disableDraw
      = fun g => if g = f.gm then f.gmDraw else s.disableDraw g := by
  funext g
  show (if g = f.gm then f.gmDraw else (setMode f.mode s).disableDraw g) = _
  rw [setMode_disableDraw]

lemma specScreenChanged_true_eq (sc : SpecScreens) (s : S) :
    specScreenChanged sc true s
      = applyScreen sc { ignoreAllS s with stack := pushFrame (ignoreAllS s) :: (ignoreAllS s).stack } := rfl

lemma specScreenChanged_false_nil (sc : SpecScreens) (s : S) (h : s.stack = []) :
    specScreenChanged sc false s = ignoreAllS s := by
  unfold specScreenChanged
  have h1 : (ignoreAllS s).stack = [] := h
  simp [h1]

lemma specScreenChanged_false_cons (sc : SpecScreens) (s : S) (f : Frame) (rest : List Frame)
    (h : s.stack = f :: rest) :
    specScreenChanged sc false s = popFrame f { ignoreAllS s with stack := rest } := by
  unfold specScreenChanged
  have h1 : (ignoreAllS s).stack = f :: rest := h
  simp [h1]

/-- C3: for every starting state and all modal screen kinds, notifying
`specScreenChanged` with `enter = true` and then immediately with
`enter = false` restores the touch mode, the (current) game mode's
`disable_draw` flag and the normal pad's `textbox_mode` flag to their
exact pre-push values. -/
theorem c3_push_pop_roundtrip (s : S) (sc sc' : SpecScreens) :
    (specScreenChanged sc' false (specScreenChanged sc true s)).mode = s.mode ∧
    (specScreenChanged sc' false (specScreenChanged sc true s)).disableDraw = s.disableDraw ∧
    (specScreenChanged sc' false (specScreenChanged sc true s)).textbox = s.textbox := by
  have hE : (specScreenChanged sc true s).stack = pushFrame (ignoreAllS s) :: s.stack := by
    rw [specScreenChanged_true_eq, applyScreen_stack]
    rfl
  have h2 := specScreenChanged_false_cons sc' (specScreenChanged sc true s)
    (pushFrame (ignoreAllS s)) s.stack hE
  rw [h2]
  have hdd : ({ ignoreAllS (specScreenChanged sc true s) with stack := s.stack } : S).disableDraw
      = s.disableDraw := by
    have h3 : ({ ignoreAllS (specScreenChanged sc true s) with stack := s.stack } : S).disableDraw
        = (specScreenChanged sc true s).disableDraw := rfl
    rw [h3, specScreenChanged_true_eq, applyScreen_disableDraw]
    rfl
  refine ⟨popFrame_mode _ _, ?_, popFrame_textbox _ _⟩
  rw [popFrame_disableDraw]
  have hgm : (pushFrame (ignoreAllS s)).gm = s.gamemode := rfl
  have hgd : (pushFrame (ignoreAllS s)).gmDraw = s.disableDraw s.gamemode := rfl
  funext g
  rw [hgm, hgd, hdd]
  by_cases hg : g = s.gamemode
  · rw [if_pos hg, hg]
  · rw [if_neg hg]

/-- C5 counterexample: with one tracked finger and an empty context
stack, `specScreenChanged(_, enter=false)` is *not* a no-op — the
registry is flushed (into the ignore set) before the empty-stack check. -/
theorem c5_counterexample :
    (specScreenChanged SpecScreens.eSaveLoad false cs5).registry ≠ cs5.registry ∧
    (specScreenChanged SpecScreens.eSaveLoad false cs5).ignored ≠ cs5.ignored := by
  rw [specScreenChanged_false_nil SpecScreens.eSaveLoad cs5 rfl]
  constructor
  · show ([] : List (ℕ × Point)) ≠ _
    simp [cs5, sBase]
  · show insertIgn 1 [] ≠ _
    simp [cs5, sBase, insertIgn]

/-- C5 (amended): a pop with an empty context stack leaves the touch
mode, the recognizer toggle, every pad's `disable_draw` flag, the
text-box flag, the stack, the game mode, the cached resolution, the flag
arrays, the tap buffer and the enabled flag unchanged; however it is not
a full no-op: the finger registry is emptied and its ids are moved into
the ignore set (`ignoreAllCurrentFingers` runs on every screen change,
before the empty-stack check). -/
theorem c5_empty_pop_amended (s : S) (sc : SpecScreens) (h : s.stack = []) :
    (specScreenChanged sc false s).mode = s.mode ∧
    (specScreenChanged sc false s).recognizer = s.recognizer ∧
    (specScreenChanged sc false s).enabled = s.enabled ∧
    (specScreenChanged sc false s).disableDraw = s.disableDraw ∧
    (specScreenChanged sc false s).textbox = s.textbox ∧
    (specScreenChanged sc false s).stack = s.stack ∧
    (specScreenChanged sc false s).gamemode = s.gamemode ∧
    (specScreenChanged sc false s).res = s.res ∧
    (specScreenChanged sc false s).pad = s.pad ∧
    (specScreenChanged sc false s).taps = s.taps ∧
    (specScreenChanged sc false s).registry = [] ∧
    (specScreenChanged sc false s).ignored
      = s.registry.foldl (fun ig e => insertIgn e.1 ig) s.ignored := by
  rw [specScreenChanged_false_nil sc s h]
  exact ⟨rfl, rfl, rfl, rfl, rfl, rfl, rfl, rfl, rfl, rfl, rfl, rfl⟩

/-- C5 witness: the amended theorem applied at a concrete state. -/
theorem c5_empty_pop_witness :
    (specScreenChanged SpecScreens.eYesNo false sBase).mode = sBase.mode ∧
    (specScreenChanged SpecScreens.eYesNo false sBase).registry = [] :=
  ⟨(c5_empty_pop_amended sBase SpecScreens.eYesNo rfl).1,
   (c5_empty_pop_amended sBase SpecScreens.eYesNo rfl).2.2.2.2.2.2.2.2.2.2.1⟩

/-- C4 counterexample: `IslandModePad` has no `on_enter` override, so it
inherits the empty `DefaultControl::on_enter`; entering the island mode
from touch-only mode leaves the controller in touch-only, not in
"both" as the claim states. -/
theorem c4_counterexample :
    (onEnter GameMode.gmIsland sBase).mode = VjoyMode.etouch ∧
    (onEnter GameMode.gmIsland sBase).mode ≠ VjoyMode.eboth := by
  constructor
  · rfl
  · intro h
    exact VjoyMode.noConfusion h

/-- C4 (amended): the island and credits pads' `on_enter` is the
inherited no-op — it leaves the whole state (in particular the
touch-mode controller) unchanged rather than setting it to "both";
none/normal hardcode touch-only; every mode with an explicit context key
sets the mode obtained from the tri-state configuration lookup. -/
theorem c4_on_enter_amended (s : S) :
    onEnter GameMode.gmIsland s = s ∧
    onEnter GameMode.gmCredits s = s ∧
    (onEnter GameMode.gmNone s).mode = VjoyMode.etouch ∧
    (onEnter GameMode.gmNormal s).mode = VjoyMode.etouch ∧
    (onEnter GameMode.gmInventory s).mode = modeFromValid (s.settings TapPlace.eInventory) ∧
    (onEnter GameMode.gmMapSystem s).mode = modeFromValid (s.settings TapPlace.eMapSystem) ∧
    (onEnter GameMode.gmIntro s).mode = modeFromValid (s.settings TapPlace.eMovies) ∧
    (onEnter GameMode.gmTitle s).mode = modeFromValid (s.settings TapPlace.eTitle) ∧
    (onEnter GameMode.gmPaused s).mode = modeFromValid (s.settings TapPlace.ePause) ∧
    (onEnter GameMode.gmOptions s).mode = modeFromValid (s.settings TapPlace.eOptions) :=
  ⟨rfl, rfl, setMode_mode _ _, setMode_mode _ _, setMode_mode _ _, setMode_mode _ _,
   setMode_mode _ _, setMode_mode _ _, setMode_mode _ _, setMode_mode _ _⟩

/-- C6: `getModeFromSettings` maps ETAP ↦ gesture-only, EPAD ↦
touch-only, EBOTH ↦ both, and an unrecognized key trips the fatal
assertion (modelled as `Except.error`) instead of silently returning a
default to the caller. -/
theorem c6_mode_from_settings :
    getModeFromSettings (TapCell.val TapVal.etap) = Except.ok VjoyMode.egesture ∧
    getModeFromSettings (TapCell.val TapVal.epad) = Except.ok VjoyMode.etouch ∧
    getModeFromSettings (TapCell.val TapVal.eboth) = Except.ok VjoyMode.eboth ∧
    getModeFromSettings TapCell.unrecognized = Except.error () :=
  ⟨rfl, rfl, rfl, rfl⟩

/-- C7: `setMode(n)` is a no-op when `n` equals the current mode; when it
differs it stores `n`, toggles the recognizer to (n ≠ touch-only) and
clears the finger registry exactly when `n` is gesture-only; after
switching into gesture-only a `process()` dispatches zero fingers and
leaves every button flag false. -/
theorem c7_set_mode (s : S) (m : VjoyMode) :
    (m = s.mode → setMode m s = s) ∧
    (m ≠ s.mode →
      (setMode m s).mode = m ∧
      (setMode m s).recognizer = decide (m ≠ VjoyMode.etouch) ∧
      (setMode m s).registry = (if m = VjoyMode.egesture then [] else s.registry)) ∧
    (s.mode ≠ VjoyMode.egesture → s.enabled = true →
      (setMode VjoyMode.egesture s).registry = [] ∧
      (∀ i : Fin 26, ¬ (processInput (setMode VjoyMode.egesture s)).pad.inputs i) ∧
      (∀ j : Fin 8, ¬ (processInput (setMode VjoyMode.egesture s)).pad.pressed j)) := by
  refine ⟨fun h => ?_, fun h => ?_, fun hm he => ?_⟩
  · unfold setMode
    rw [if_pos h]
  · unfold setMode
    rw [if_neg h]
    exact ⟨rfl, rfl, rfl⟩
  · have hne : VjoyMode.egesture ≠ s.mode := fun hh => hm hh.symm
    have hreg : (setMode VjoyMode.egesture s).registry = [] := by
      unfold setMode
      rw [if_neg hne]
      simp
    have hen : (setMode VjoyMode.egesture s).enabled = true := by
      rw [setMode_enabled, he]
    have hpad : (processInput (setMode VjoyMode.egesture s)).pad = padZero := by
      unfold processInput
      rw [if_pos hen, hreg]
      rfl
    refine ⟨hreg, ?_, ?_⟩
    · intro i
      rw [hpad]
      exact fun hf => hf
    · intro j
      rw [hpad]
      exact fun hf => hf

/-- C7 witness: from touch-only with two tracked fingers, switching to
gesture-only clears the registry and a subsequent process leaves the
FIREKEY flag false. -/
theorem c7_set_mode_witness :
    (setMode VjoyMode.egesture s7w).registry = [] ∧
    ¬ (processInput (setMode VjoyMode.egesture s7w)).pad.inputs FIREKEY := by
  have h := (c7_set_mode s7w VjoyMode.egesture).2.2 (by intro hh; exact VjoyMode.noConfusion hh) rfl
  exact ⟨h.1, h.2.1 FIREKEY⟩

/-- C10: a finger-up event injected while the system is enabled removes
the id from both the finger registry and the ignore set, regardless of
the current touch mode and of whether the device resolution has been
resolved (the FINGERUP branch runs before both checks). -/
theorem c10_finger_up (s : S) (id : ℕ) (he : s.enabled = true) :
    ¬ id ∈ (injectUpS id s).registry.map Prod.fst ∧
    ¬ id ∈ (injectUpS id s).ignored := by
  unfold injectUpS
  rw [he]
  constructor
  · simp [eraseReg, List.mem_map, List.mem_filter]
  · simp [eraseIgn, List.mem_filter]

/-- C10 witness: at a concrete state with finger 3 both tracked and
ignored. -/
theorem c10_finger_up_witness :
    ¬ 3 ∈ (injectUpS 3 s10w).registry.map Prod.fst ∧
    ¬ 3 ∈ (injectUpS 3 s10w).ignored :=
  c10_finger_up s10w 3 rfl

lemma mem_insertIgn_self (i : ℕ) (l : List ℕ) : i ∈ insertIgn i l := by
  unfold insertIgn
  split
  next h => exact h
  next => exact List.mem_cons_self _ _

lemma mem_insertIgn_of_mem {a : ℕ} (i : ℕ) (l : List ℕ) (h : a ∈ l) :
    a ∈ insertIgn i l := by
  unfold insertIgn
  split
  next => exact h
  next => exact List.mem_cons_of_mem _ h

lemma mem_foldl_insertIgn_of_mem {a : ℕ} (l : List (ℕ × Point)) (ig : List ℕ)
    (h : a ∈ ig) : a ∈ l.foldl (fun ig e => insertIgn e.1 ig) ig := by
  induction l generalizing ig with
  | nil => exact h
  | cons e t ih => exact ih _ (mem_insertIgn_of_mem _ _ h)

lemma mem_foldl_insertIgn_of_key {a : ℕ} (l : List (ℕ × Point)) (ig : List ℕ)
    (h : a ∈ l.map Prod.fst) : a ∈ l.foldl (fun ig e => insertIgn e.1 ig) ig := by
  induction l generalizing ig with
  | nil => simp at h
  | cons e t ih =>
      rw [List.map_cons, List.mem_cons] at h
      rw [List.foldl_cons]
      rcases h with h | h
      · subst h
        exact mem_foldl_insertIgn_of_mem _ _ (mem_insertIgn_self _ _)
      · exact ih _ h

lemma mem_map_fst_upsert (a id : ℕ) (p : Point) (l : List (ℕ × Point)) :
    a ∈ (upsert id p l).map Prod.fst ↔ a = id ∨ a ∈ l.map Prod.fst := by
  induction l with
  | nil => simp [upsert]
  | cons e t ih =>
      unfold upsert
      by_cases h1 : id < e.1
      · rw [if_pos h1]
        simp
      · rw [if_neg h1]
        by_cases h2 : id = e.1
        · rw [if_pos h2]
          subst h2
          simp
        · rw [if_neg h2]
          simp [ih]
          tauto

lemma keptOut_setMode {id : ℕ} (m : VjoyMode) (s : S) (h : KeptOut id s) :
    KeptOut id (setMode m s) := by
  rcases h with ⟨hi, hr⟩
  constructor
  · rw [setMode_ignored]
    exact hi
  · unfold setMode
    split
    next => exact hr
    next =>
      show ¬ id ∈ (if m = VjoyMode.egesture then [] else s.registry).map Prod.fst
      split
      · simp
      · exact hr

lemma keptOut_ignoreAllS {id : ℕ} (s : S) (h : KeptOut id s) :
    KeptOut id (ignoreAllS s) := by
  exact ⟨mem_foldl_insertIgn_of_mem _ _ h.1, by simp [ignoreAllS]⟩

lemma keptOut_applySample {id : ℕ} (idq : ℕ) (raw : Point) (r : ℝ × ℝ) (s : S)
    (h : KeptOut id s) : KeptOut id (applySample idq raw r s) := by
  unfold applySample
  split
  next => exact h
  next hq =>
    refine ⟨h.1, ?_⟩
    show ¬ id ∈ (upsert idq _ s.registry).map Prod.fst
    rw [mem_map_fst_upsert]
    rintro (hh | hh)
    · subst hh
      exact hq h.1
    · exact h.2 hh

lemma keptOut_injectMoveS {id : ℕ} (idq : ℕ) (raw : Point) (resQ : Option (ℝ × ℝ))
    (s : S) (h : KeptOut id s) : KeptOut id (injectMoveS idq raw resQ s) := by
  unfold injectMoveS
  split
  · split
    next => exact h
    next =>
      cases hres : s.res with
      | some r => exact keptOut_applySample idq raw r s h
      | none =>
          cases resQ with
          | some r => exact keptOut_applySample idq raw r _ h
          | none => exact h
  · exact h

lemma keptOut_injectUpS {id : ℕ} (idq : ℕ) (hne : idq ≠ id) (s : S)
    (h : KeptOut id s) : KeptOut id (injectUpS idq s) := by
  unfold injectUpS
  split
  · constructor
    · show id ∈ eraseIgn idq s.ignored
      unfold eraseIgn
      rw [List.mem_filter]
      refine ⟨h.1, ?_⟩
      simp
      exact fun hh => hne hh.symm
    · show ¬ id ∈ (eraseReg idq s.registry).map Prod.fst
      intro hh
      rw [List.mem_map] at hh
      rcases hh with ⟨e, he, hfst⟩
      unfold eraseReg at he
      rw [List.mem_filter] at he
      exact h.2 (List.mem_map.mpr ⟨e, he.1, hfst⟩)
  · exact h

lemma keptOut_popFrame {id : ℕ} (f : Frame) (s : S) (h : KeptOut id s) :
    KeptOut id (popFrame f s) :=
  keptOut_setMode f.mode s h

lemma keptOut_applyScreen {id : ℕ} (sc : SpecScreens) (s : S) (h : KeptOut id s) :
    KeptOut id (applyScreen sc s) := by
  cases sc <;> exact keptOut_setMode _ s h

lemma keptOut_specScreenChanged {id : ℕ} (sc : SpecScreens) (en : Bool) (s : S)
    (h : KeptOut id s) : KeptOut id (specScreenChanged sc en s) := by
  have h1 : KeptOut id (ignoreAllS s) := keptOut_ignoreAllS s h
  cases en with
  | true =>
      rw [specScreenChanged_true_eq]
      exact keptOut_applyScreen sc _ h1
  | false =>
      cases hst : (ignoreAllS s).stack with
      | nil =>
          rw [specScreenChanged_false_nil sc s hst]
          exact h1
      | cons f rest =>
          rw [specScreenChanged_false_cons sc s f rest hst]
          exact keptOut_popFrame f _ h1

lemma keptOut_onEnter {id : ℕ} (gm : GameMode) (s : S) (h : KeptOut id s) :
    KeptOut id (onEnter gm s) := by
  cases gm <;> first
    | exact h
    | exact keptOut_setMode _ s h

lemma keptOut_gameModeChangedS {id : ℕ} (gm : GameMode) (s : S) (h : KeptOut id s) :
    KeptOut id (gameModeChangedS gm s) :=
  keptOut_ignoreAllS _ (keptOut_onEnter gm _ h)

lemma keptOut_processInput {id : ℕ} (s : S) (h : KeptOut id s) :
    KeptOut id (processInput s) := by
  unfold processInput
  split <;> exact h

lemma keptOut_preProcessS {id : ℕ} (s : S) (h : KeptOut id s) :
    KeptOut id (preProcessS s) := by
  unfold preProcessS
  split <;> exact h

/-- Any single step other than a finger-up for `id` preserves the
invariant: an ignored id is never inserted into the registry and stays
ignored. -/
lemma keptOut_step {id : ℕ} (e : Step) (he : e ≠ Step.injectUpEv id) (s : S)
    (h : KeptOut id s) : KeptOut id (step e s) := by
  cases e with
  | injectMove idq raw resQ => exact keptOut_injectMoveS idq raw resQ s h
  | injectUpEv idq =>
      refine keptOut_injectUpS idq ?_ s h
      intro hh
      exact he (by rw [hh])
  | processEv => exact keptOut_processInput s h
  | preProcessEv => exact keptOut_preProcessS s h
  | tapEv x y => exact h
  | setModeEv m => exact keptOut_setMode m s h
  | screenEv sc en => exact keptOut_specScreenChanged sc en s h
  | gameModeEv gm => exact keptOut_gameModeChangedS gm s h
  | ignoreAllEv => exact keptOut_ignoreAllS s h
  | initEv => exact h
  | destroyEv => exact h

lemma keptOut_run {id : ℕ} (l : List Step) (hl : ∀ e ∈ l, e ≠ Step.injectUpEv id)
    (s : S) (h : KeptOut id s) : KeptOut id (run l s) := by
  induction l generalizing s with
  | nil => exact h
  | cons e t ih =>
      exact ih (fun x hx => hl x (List.mem_cons_of_mem _ hx)) _
        (keptOut_step e (hl e (List.mem_cons_self _ _)) s h)

/-- C8: after `ignore_all_current()`, any id that was tracked at call time
is in the ignore set and out of the registry, and stays so through every
subsequent operation sequence that contains no finger-up event for that
id — in particular move/down samples for it are never inserted, and the
id leaves the ignore set only via a finger-up. -/
theorem c8_ignored_fingers_stay_out (s : S) (id : ℕ) (l : List Step)
    (htr : id ∈ s.registry.map Prod.fst)
    (hl : ∀ e ∈ l, e ≠ Step.injectUpEv id) :
    id ∈ (run l (ignoreAllS s)).ignored ∧
    ¬ id ∈ (run l (ignoreAllS s)).registry.map Prod.fst := by
  have h0 : KeptOut id (ignoreAllS s) :=
    ⟨mem_foldl_insertIgn_of_key _ _ htr, by simp [ignoreAllS]⟩
  exact keptOut_run l hl (ignoreAllS s) h0

/-- C8 witness: finger 1 is tracked; after `ignore_all_current()` a
move/down sample for it does not re-enter the registry. -/
theorem c8_ignored_fingers_stay_out_witness :
    1 ∈ (run [Step.injectMove 1 ⟨0, 0⟩ (some (1, 1))] (ignoreAllS cs5)).ignored ∧
    ¬ 1 ∈ (run [Step.injectMove 1 ⟨0, 0⟩ (some (1, 1))] (ignoreAllS cs5)).registry.map Prod.fst := by
  refine c8_ignored_fingers_stay_out cs5 1 _ ?_ ?_
  · simp [cs5, sBase]
  · intro e he
    rw [List.mem_singleton] at he
    subst he
    intro hh
    exact Step.noConfusion hh

lemma Point.ext' (p q : Point) (hx : p.x = q.x) (hy : p.y = q.y) : p = q := by
  cases p
  cases q
  cases hx
  cases hy
  rfl

lemma add_sub_cancel_pt (q a : Point) : (q + a) - a = q := by
  refine Point.ext' _ _ ?_ ?_ <;> simp

/-- The eight sector triangles in terms of their angle tables. -/
lemma seg_K_pos (j : Fin 8) : 0 < Real.sin ((rcv j - rbv j) * (π / 8)) := by
  fin_cases j
  · exact (by norm_num [rbv, rcv] : ((1:ℝ) - -1) * (π/8) = 2 * (π/8)) ▸ sin_eighth_pos 2 (by norm_num) (by norm_num)
  · exact (by norm_num [rbv, rcv] : ((3:ℝ) - 1) * (π/8) = 2 * (π/8)) ▸ sin_eighth_pos 2 (by norm_num) (by norm_num)
  · exact (by norm_num [rbv, rcv] : ((5:ℝ) - 3) * (π/8) = 2 * (π/8)) ▸ sin_eighth_pos 2 (by norm_num) (by norm_num)
  · exact (by norm_num [rbv, rcv] : ((7:ℝ) - 5) * (π/8) = 2 * (π/8)) ▸ sin_eighth_pos 2 (by norm_num) (by norm_num)
  · show 0 < Real.sin ((rcv 4 - rbv 4) * (π / 8))
    have h1 : (rcv 4 - rbv 4 : ℝ) = 2 - 16 := by norm_num [rbv, rcv]
    rw [h1, sin_eighth_sub_sixteen]
    exact sin_eighth_pos 2 (by norm_num) (by norm_num)
  · exact (by norm_num [rbv, rcv] : ((-5:ℝ) - -7) * (π/8) = 2 * (π/8)) ▸ sin_eighth_pos 2 (by norm_num) (by norm_num)
  · exact (by norm_num [rbv, rcv] : ((-3:ℝ) - -5) * (π/8) = 2 * (π/8)) ▸ sin_eighth_pos 2 (by norm_num) (by norm_num)
  · exact (by norm_num [rbv, rcv] : ((-1:ℝ) - -3) * (π/8) = 2 * (π/8)) ▸ sin_eighth_pos 2 (by norm_num) (by norm_num)

lemma segments_inside_iff (j : Fin 8) (p : Point) :
    (segments j).inside p ↔
      (0 ≤ cross (dir (rbv j * (π / 8))) (p - segCenter) ∧
       0 ≤ cross (p - segCenter) (dir (rcv j * (π / 8))) ∧
       cross (dir (rbv j * (π / 8))) (p - segCenter)
         + cross (p - segCenter) (dir (rcv j * (π / 8)))
         ≤ segSize * Real.sin ((rcv j - rbv j) * (π / 8))) :=
  Tri.inside_iff segCenter segSize (rbv j) (rcv j) p (by norm_num [segSize]) (seg_K_pos j)

/-- Membership of a point given in polar form around the wheel center. -/
lemma inside_polar (j : Fin 8) (φ r : ℝ) :
    (segments j).inside ((dir (φ * (π / 8))).scale r + segCenter) ↔
      (0 ≤ r * Real.sin ((φ - rbv j) * (π / 8)) ∧
       0 ≤ r * Real.sin ((rcv j - φ) * (π / 8)) ∧
       r * Real.sin ((φ - rbv j) * (π / 8)) + r * Real.sin ((rcv j - φ) * (π / 8))
         ≤ segSize * Real.sin ((rcv j - rbv j) * (π / 8))) := by
  rw [segments_inside_iff, add_sub_cancel_pt, cross_dir_dir_scale, cross_scale_dir]
  have e1 : φ * (π / 8) - rbv j * (π / 8) = (φ - rbv j) * (π / 8) := by ring
  have e2 : rcv j * (π / 8) - φ * (π / 8) = (rcv j - φ) * (π / 8) := by ring
  rw [e1, e2]

lemma inWheel_polar (φ r : ℝ) (h : r * r ≤ segSize * segSize) :
    inWheel ((dir (φ * (π / 8))).scale r + segCenter) := by
  unfold inWheel
  rw [add_sub_cancel_pt, nsq_dir_scale]
  exact not_lt.mpr h

lemma inWheel_ptA : inWheel ptA :=
  inWheel_polar 4 0.02 (by norm_num [segSize])

lemma inWheel_ptB : inWheel ptB :=
  inWheel_polar 0 0.02 (by norm_num [segSize])

lemma sqrt_two_lb : (1.2 : ℝ) ≤ Real.sqrt 2 := by
  nlinarith [Real.sq_sqrt (show (0:ℝ) ≤ 2 by norm_num), Real.sqrt_nonneg 2]

lemma inside2_ptA : (segments 2).inside ptA := by
  rw [show ptA = (dir (4 * (π / 8))).scale 0.02 + segCenter from rfl, inside_polar]
  have h1 : ((4:ℝ) - rbv 2) = 1 := by norm_num [rbv]
  have h2 : (rcv 2 - (4:ℝ)) = 1 := by norm_num [rcv]
  have h3 : (rcv 2 - rbv 2 : ℝ) = 2 := by norm_num [rbv, rcv]
  rw [h1, h2, h3]
  have hs1 : 0 < Real.sin ((1:ℝ) * (π / 8)) := sin_eighth_pos 1 (by norm_num) (by norm_num)
  have hs1' : Real.sin ((1:ℝ) * (π / 8)) ≤ 1 := Real.sin_le_one _
  have hs2 : Real.sin ((2:ℝ) * (π / 8)) = Real.sqrt 2 / 2 := by
    rw [show (2:ℝ) * (π / 8) = π / 4 by ring]
    exact Real.sin_pi_div_four
  refine ⟨by positivity, by positivity, ?_⟩
  rw [hs2, show segSize = (0.13:ℝ) from rfl]
  nlinarith [sqrt_two_lb]

lemma not_inside1_ptB : ¬ (segments 1).inside ptB := by
  rw [show ptB = (dir (0 * (π / 8))).scale 0.02 + segCenter from rfl, inside_polar]
  rintro ⟨hL, _, _⟩
  have h1 : ((0:ℝ) - rbv 1) = -1 := by norm_num [rbv]
  rw [h1] at hL
  have := sin_eighth_neg (-1) (by norm_num) (by norm_num)
  nlinarith

lemma not_inside2_ptB : ¬ (segments 2).inside ptB := by
  rw [show ptB = (dir (0 * (π / 8))).scale 0.02 + segCenter from rfl, inside_polar]
  rintro ⟨hL, _, _⟩
  have h1 : ((0:ℝ) - rbv 2) = -3 := by norm_num [rbv]
  rw [h1] at hL
  have := sin_eighth_neg (-3) (by norm_num) (by norm_num)
  nlinarith

lemma not_inside3_ptB : ¬ (segments 3).inside ptB := by
  rw [show ptB = (dir (0 * (π / 8))).scale 0.02 + segCenter from rfl, inside_polar]
  rintro ⟨hL, _, _⟩
  have h1 : ((0:ℝ) - rbv 3) = -5 := by norm_num [rbv]
  rw [h1] at hL
  have := sin_eighth_neg (-5) (by norm_num) (by norm_num)
  nlinarith

lemma wheelDown_ptA : wheelDown ptA := Or.inr (Or.inl inside2_ptA)

lemma not_wheelDown_ptB : ¬ wheelDown ptB := by
  rintro (h | h | h)
  · exact not_inside1_ptB h
  · exact not_inside2_ptB h
  · exact not_inside3_ptB h

/-- C1 counterexample: with two fingers inside the wheel (A in the
"down" sector, B in the "right" sector), `process()` dispatches A then B
and B's wheel assignment *overwrites* the down flag A had set, so the
final flag array is not the union of the two fingers' individual
results (and depends on the registry iteration order). -/
theorem c1_union_counterexample :
    ¬ ((processInput s1c).pad.inputs 3 ↔ ∃ p ∈ [ptA, ptB], singleFlags p 3) := by
  have hA : singleFlags ptA 3 := by
    show wgate ptA (wheelDown ptA) (padZero.inputs 3 ∨ rectHit 3 ptA)
    exact Or.inl ⟨inWheel_ptA, wheelDown_ptA⟩
  have hnot : ¬ (processInput s1c).pad.inputs 3 := by
    show ¬ wgate ptB (wheelDown ptB) ((vkeysUpdateButtons ptA padZero).inputs 3 ∨ rectHit 3 ptB)
    rintro (⟨_, hd⟩ | ⟨hnw, _⟩)
    · exact not_wheelDown_ptB hd
    · exact hnw inWheel_ptB
  intro hiff
  exact hnot (hiff.mpr ⟨ptA, by simp, hA⟩)

lemma wgate_not {p : Point} (nw old : Prop) (h : ¬ inWheel p) :
    wgate p nw old ↔ old := by
  unfold wgate
  constructor
  · rintro (⟨hw, _⟩ | ⟨_, ho⟩)
    · exact absurd hw h
    · exact ho
  · intro ho
    exact Or.inr ⟨h, ho⟩

lemma padWheelUpdate_inputs_high (p : Point) (st : PadState) (i : Fin 26)
    (h : 4 ≤ (i : ℕ)) : (padWheelUpdate p st).inputs i = st.inputs i := by
  show (if (i : ℕ) = 0 then wgate p (wheelLeft p) (st.inputs i)
        else if (i : ℕ) = 1 then wgate p (wheelRight p) (st.inputs i)
        else if (i : ℕ) = 2 then wgate p (wheelUp p) (st.inputs i)
        else if (i : ℕ) = 3 then wgate p (wheelDown p) (st.inputs i)
        else st.inputs i) = st.inputs i
  rw [if_neg (by omega), if_neg (by omega), if_neg (by omega), if_neg (by omega)]

lemma padWheelUpdate_inputs_nw (p : Point) (st : PadState) (i : Fin 26)
    (h : ¬ inWheel p) : (padWheelUpdate p st).inputs i ↔ st.inputs i := by
  show (if (i : ℕ) = 0 then wgate p (wheelLeft p) (st.inputs i)
        else if (i : ℕ) = 1 then wgate p (wheelRight p) (st.inputs i)
        else if (i : ℕ) = 2 then wgate p (wheelUp p) (st.inputs i)
        else if (i : ℕ) = 3 then wgate p (wheelDown p) (st.inputs i)
        else st.inputs i) ↔ st.inputs i
  split_ifs <;> first
    | exact wgate_not _ _ h
    | exact Iff.rfl

lemma vkeysUpdate_inputs_high (p : Point) (st : PadState) (i : Fin 26)
    (h : 4 ≤ (i : ℕ)) :
    (vkeysUpdateButtons p st).inputs i = (st.inputs i ∨ rectHit i p) := by
  show (padWheelUpdate p ⟨fun i => st.inputs i ∨ rectHit i p, st.pressed⟩).inputs i = _
  rw [padWheelUpdate_inputs_high _ _ _ h]

lemma vkeysUpdate_inputs_nw (p : Point) (st : PadState) (i : Fin 26)
    (h : ¬ inWheel p) :
    (vkeysUpdateButtons p st).inputs i ↔ (st.inputs i ∨ rectHit i p) := by
  show (padWheelUpdate p ⟨fun i => st.inputs i ∨ rectHit i p, st.pressed⟩).inputs i ↔ _
  exact padWheelUpdate_inputs_nw _ _ _ h

lemma foldl_inputs_high (l : List Point) (st : PadState) (i : Fin 26)
    (h : 4 ≤ (i : ℕ)) :
    ((l.foldl (fun st p => vkeysUpdateButtons p st) st).inputs i
      ↔ st.inputs i ∨ ∃ p ∈ l, rectHit i p) := by
  induction l generalizing st with
  | nil => simp
  | cons hd tl ih =>
      rw [List.foldl_cons]
      rw [ih, vkeysUpdate_inputs_high _ _ _ h]
      simp [List.exists_mem_cons_iff]
      tauto

lemma foldl_inputs_nw (l : List Point) (st : PadState) (i : Fin 26)
    (h : ∀ p ∈ l, ¬ inWheel p) :
    ((l.foldl (fun st p => vkeysUpdateButtons p st) st).inputs i
      ↔ st.inputs i ∨ ∃ p ∈ l, rectHit i p) := by
  induction l generalizing st with
  | nil => simp
  | cons hd tl ih =>
      rw [List.foldl_cons]
      rw [ih _ (fun p hp => h p (List.mem_cons_of_mem _ hp))]
      have h2 := vkeysUpdate_inputs_nw hd st i (h hd (List.mem_cons_self _ _))
      rw [h2]
      simp [List.exists_mem_cons_iff]
      tauto

lemma singleFlags_high (p : Point) (i : Fin 26) (h : 4 ≤ (i : ℕ)) :
    singleFlags p i ↔ rectHit i p := by
  show (processList [p]).inputs i ↔ _
  unfold processList
  rw [foldl_inputs_high _ _ _ h]
  simp [padZero]

lemma singleFlags_nw (p : Point) (i : Fin 26) (h : ¬ inWheel p) :
    singleFlags p i ↔ rectHit i p := by
  show (processList [p]).inputs i ↔ _
  unfold processList
  rw [foldl_inputs_nw _ _ _ (by simpa using h)]
  simp [padZero]

/-- C1 (amended): the union property holds for every non-directional flag
(index ≥ 4 — all rectangle-driven buttons and the text-box FIRE key):
after dispatching all fingers the flag equals the union of the fingers'
individual results, independent of order.  It also holds for all flags
when no tracked finger lies inside the wheel's radius gate.  It fails
for the directional flags 0–3 as soon as two fingers are inside the
wheel, because `Pad::update_buttons` assigns (rather than ORs) them, so
the last-dispatched finger overwrites the earlier ones (see the
counterexample). -/
theorem c1_union_amended (l : List Point) (i : Fin 26) :
    (4 ≤ (i : ℕ) → ((processList l).inputs i ↔ ∃ p ∈ l, singleFlags p i)) ∧
    ((∀ p ∈ l, ¬ inWheel p) → ((processList l).inputs i ↔ ∃ p ∈ l, singleFlags p i)) := by
  constructor
  · intro h
    unfold processList
    rw [foldl_inputs_high _ _ _ h]
    constructor
    · rintro (hf | ⟨p, hp, hr⟩)
      · exact absurd hf (fun hh => hh)
      · exact ⟨p, hp, (singleFlags_high p i h).mpr hr⟩
    · rintro ⟨p, hp, hs⟩
      exact Or.inr ⟨p, hp, (singleFlags_high p i h).mp hs⟩
  · intro h
    unfold processList
    rw [foldl_inputs_nw _ _ _ h]
    constructor
    · rintro (hf | ⟨p, hp, hr⟩)
      · exact absurd hf (fun hh => hh)
      · exact ⟨p, hp, (singleFlags_nw p i (h p hp)).mpr hr⟩
    · rintro ⟨p, hp, hs⟩
      exact Or.inr ⟨p, hp, (singleFlags_nw p i (h p hp)).mp hs⟩

/-- C1 witness: the amended union property evaluated for the FIREKEY flag
with one concrete finger inside the wheel. -/
theorem c1_union_amended_witness :
    (processList [ptA]).inputs FIREKEY ↔ ∃ p ∈ [ptA], singleFlags p FIREKEY :=
  (c1_union_amended [ptA] FIREKEY).1 (by decide)

lemma rbv_succ (k : Fin 8) : rbv (k + 1) = rcv k := by
  fin_cases k <;> rfl

/-- Negativity of `sin (n*π/8)` for `8 < n < 16`. -/
lemma sin_eighth_neg' (n : ℝ) (h1 : 8 < n) (h2 : n < 16) :
    Real.sin (n * (π / 8)) < 0 := by
  have h := sin_eighth_sub_sixteen n
  rw [← h]
  exact sin_eighth_neg (n - 16) (by linarith) (by linarith)

lemma ray_mem_self (k : Fin 8) (r : ℝ) (h1 : 0 < r) (h2 : r ≤ segSize) :
    (segments k).inside (rayPoint k r) := by
  unfold rayPoint
  rw [inside_polar]
  have hK := seg_K_pos k
  refine ⟨mul_nonneg h1.le hK.le, ?_, ?_⟩
  · rw [sub_self, zero_mul, Real.sin_zero, mul_zero]
  · rw [sub_self, zero_mul, Real.sin_zero, mul_zero, add_zero]
    exact mul_le_mul_of_nonneg_right h2 hK.le

lemma ray_mem_succ (k : Fin 8) (r : ℝ) (h1 : 0 < r) (h2 : r ≤ segSize) :
    (segments (k + 1)).inside (rayPoint k r) := by
  unfold rayPoint
  rw [inside_polar]
  have hb := rbv_succ k
  have hK : 0 < Real.sin ((rcv (k + 1) - rcv k) * (π / 8)) := by
    rw [← hb]
    exact seg_K_pos (k + 1)
  refine ⟨?_, mul_nonneg h1.le hK.le, ?_⟩
  · rw [hb, sub_self, zero_mul, Real.sin_zero, mul_zero]
  · rw [hb, sub_self, zero_mul, Real.sin_zero, mul_zero, zero_add]
    exact mul_le_mul_of_nonneg_right h2 hK.le

lemma ray_not_by_left (j : Fin 8) (φ b r : ℝ) (hr : 0 < r) (hb : rbv j = b)
    (hneg : Real.sin ((φ - b) * (π / 8)) < 0) :
    ¬ (segments j).inside ((dir (φ * (π / 8))).scale r + segCenter) := by
  rw [inside_polar, hb]
  rintro ⟨hL, _, _⟩
  nlinarith

lemma ray_not_by_right (j : Fin 8) (φ c r : ℝ) (hr : 0 < r) (hc : rcv j = c)
    (hneg : Real.sin ((c - φ) * (π / 8)) < 0) :
    ¬ (segments j).inside ((dir (φ * (π / 8))).scale r + segCenter) := by
  rw [inside_polar, hc]
  rintro ⟨_, hR, _⟩
  nlinarith

/-- A boundary-ray point of positive distance is in neither of the six
non-adjacent sectors. -/
lemma ray_not_mem (k j : Fin 8) (r : ℝ) (hr : 0 < r) (h1 : j ≠ k) (h2 : j ≠ k + 1) :
    ¬ (segments j).inside (rayPoint k r) := by
  unfold rayPoint
  fin_cases k <;> fin_cases j
  · exact absurd rfl h1
  · exact absurd rfl h2
  · exact ray_not_by_left _ 1 3 r hr rfl (sin_eighth_neg (1 - 3) (by norm_num) (by norm_num))
  · exact ray_not_by_left _ 1 5 r hr rfl (sin_eighth_neg (1 - 5) (by norm_num) (by norm_num))
  · exact ray_not_by_left _ 1 7 r hr rfl (sin_eighth_neg (1 - 7) (by norm_num) (by norm_num))
  · exact ray_not_by_right _ 1 (-5) r hr rfl (sin_eighth_neg (-5 - 1) (by norm_num) (by norm_num))
  · exact ray_not_by_right _ 1 (-3) r hr rfl (sin_eighth_neg (-3 - 1) (by norm_num) (by norm_num))
  · exact ray_not_by_right _ 1 (-1) r hr rfl (sin_eighth_neg (-1 - 1) (by norm_num) (by norm_num))
  · exact ray_not_by_right _ 3 1 r hr rfl (sin_eighth_neg (1 - 3) (by norm_num) (by norm_num))
  · exact absurd rfl h1
  · exact absurd rfl h2
  · exact ray_not_by_left _ 3 5 r hr rfl (sin_eighth_neg (3 - 5) (by norm_num) (by norm_num))
  · exact ray_not_by_left _ 3 7 r hr rfl (sin_eighth_neg (3 - 7) (by norm_num) (by norm_num))
  · exact ray_not_by_left _ 3 (-7) r hr rfl (sin_eighth_neg' (3 - -7) (by norm_num) (by norm_num))
  · exact ray_not_by_right _ 3 (-3) r hr rfl (sin_eighth_neg (-3 - 3) (by norm_num) (by norm_num))
  · exact ray_not_by_right _ 3 (-1) r hr rfl (sin_eighth_neg (-1 - 3) (by norm_num) (by norm_num))
  · exact ray_not_by_right _ 5 1 r hr rfl (sin_eighth_neg (1 - 5) (by norm_num) (by norm_num))
  · exact ray_not_by_right _ 5 3 r hr rfl (sin_eighth_neg (3 - 5) (by norm_num) (by norm_num))
  · exact absurd rfl h1
  · exact absurd rfl h2
  · exact ray_not_by_left _ 5 7 r hr rfl (sin_eighth_neg (5 - 7) (by norm_num) (by norm_num))
  · exact ray_not_by_left _ 5 (-7) r hr rfl (sin_eighth_neg' (5 - -7) (by norm_num) (by norm_num))
  · exact ray_not_by_left _ 5 (-5) r hr rfl (sin_eighth_neg' (5 - -5) (by norm_num) (by norm_num))
  · exact ray_not_by_right _ 5 (-1) r hr rfl (sin_eighth_neg (-1 - 5) (by norm_num) (by norm_num))
  · exact ray_not_by_right _ 7 1 r hr rfl (sin_eighth_neg (1 - 7) (by norm_num) (by norm_num))
  · exact ray_not_by_right _ 7 3 r hr rfl (sin_eighth_neg (3 - 7) (by norm_num) (by norm_num))
  · exact ray_not_by_right _ 7 5 r hr rfl (sin_eighth_neg (5 - 7) (by norm_num) (by norm_num))
  · exact absurd rfl h1
  · exact absurd rfl h2
  · exact ray_not_by_left _ 7 (-7) r hr rfl (sin_eighth_neg' (7 - -7) (by norm_num) (by norm_num))
  · exact ray_not_by_left _ 7 (-5) r hr rfl (sin_eighth_neg' (7 - -5) (by norm_num) (by norm_num))
  · exact ray_not_by_left _ 7 (-3) r hr rfl (sin_eighth_neg' (7 - -3) (by norm_num) (by norm_num))
  · exact ray_not_by_left _ (-7) (-1) r hr rfl (sin_eighth_neg (-7 - -1) (by norm_num) (by norm_num))
  · exact ray_not_by_right _ (-7) 3 r hr rfl (sin_eighth_neg' (3 - -7) (by norm_num) (by norm_num))
  · exact ray_not_by_right _ (-7) 5 r hr rfl (sin_eighth_neg' (5 - -7) (by norm_num) (by norm_num))
  · exact ray_not_by_right _ (-7) 7 r hr rfl (sin_eighth_neg' (7 - -7) (by norm_num) (by norm_num))
  · exact absurd rfl h1
  · exact absurd rfl h2
  · exact ray_not_by_left _ (-7) (-5) r hr rfl (sin_eighth_neg (-7 - -5) (by norm_num) (by norm_num))
  · exact ray_not_by_left _ (-7) (-3) r hr rfl (sin_eighth_neg (-7 - -3) (by norm_num) (by norm_num))
  · exact ray_not_by_left _ (-5) (-1) r hr rfl (sin_eighth_neg (-5 - -1) (by norm_num) (by norm_num))
  · exact ray_not_by_left _ (-5) 1 r hr rfl (sin_eighth_neg (-5 - 1) (by norm_num) (by norm_num))
  · exact ray_not_by_right _ (-5) 5 r hr rfl (sin_eighth_neg' (5 - -5) (by norm_num) (by norm_num))
  · exact ray_not_by_right _ (-5) 7 r hr rfl (sin_eighth_neg' (7 - -5) (by norm_num) (by norm_num))
  · exact ray_not_by_right _ (-5) (-7) r hr rfl (sin_eighth_neg (-7 - -5) (by norm_num) (by norm_num))
  · exact absurd rfl h1
  · exact absurd rfl h2
  · exact ray_not_by_left _ (-5) (-3) r hr rfl (sin_eighth_neg (-5 - -3) (by norm_num) (by norm_num))
  · exact ray_not_by_left _ (-3) (-1) r hr rfl (sin_eighth_neg (-3 - -1) (by norm_num) (by norm_num))
  · exact ray_not_by_left _ (-3) 1 r hr rfl (sin_eighth_neg (-3 - 1) (by norm_num) (by norm_num))
  · exact ray_not_by_left _ (-3) 3 r hr rfl (sin_eighth_neg (-3 - 3) (by norm_num) (by norm_num))
  · exact ray_not_by_right _ (-3) 7 r hr rfl (sin_eighth_neg' (7 - -3) (by norm_num) (by norm_num))
  · exact ray_not_by_right _ (-3) (-7) r hr rfl (sin_eighth_neg (-7 - -3) (by norm_num) (by norm_num))
  · exact ray_not_by_right _ (-3) (-5) r hr rfl (sin_eighth_neg (-5 - -3) (by norm_num) (by norm_num))
  · exact absurd rfl h1
  · exact absurd rfl h2
  · exact absurd rfl h2
  · exact ray_not_by_left _ (-1) 1 r hr rfl (sin_eighth_neg (-1 - 1) (by norm_num) (by norm_num))
  · exact ray_not_by_left _ (-1) 3 r hr rfl (sin_eighth_neg (-1 - 3) (by norm_num) (by norm_num))
  · exact ray_not_by_left _ (-1) 5 r hr rfl (sin_eighth_neg (-1 - 5) (by norm_num) (by norm_num))
  · exact ray_not_by_right _ (-1) (-7) r hr rfl (sin_eighth_neg (-7 - -1) (by norm_num) (by norm_num))
  · exact ray_not_by_right _ (-1) (-5) r hr rfl (sin_eighth_neg (-5 - -1) (by norm_num) (by norm_num))
  · exact ray_not_by_right _ (-1) (-3) r hr rfl (sin_eighth_neg (-3 - -1) (by norm_num) (by norm_num))
  · exact absurd rfl h1

/-- C2 counterexample: the point 0.05 from the anchor along the boundary
at 22.5° is contained in *both* sector 0 and sector 1 — `Tri::in`'s
`b1 == b2 && b2 == b3` test also accepts "all signs ≥ 0", so edge points
are double-counted, refuting "exactly one sector contains p" and "no
double membership". -/
theorem c2_exactly_one_counterexample :
    (segments 0).inside (rayPoint 0 0.05) ∧
    (segments 1).inside (rayPoint 0 0.05) ∧
    (0 : Fin 8) ≠ (1 : Fin 8) := by
  refine ⟨ray_mem_self 0 0.05 (by norm_num) ?_, ?_, by decide⟩
  · rw [show segSize = (0.13:ℝ) from rfl]
    norm_num
  · have h := ray_mem_succ 0 0.05 (by norm_num) (by rw [show segSize = (0.13:ℝ) from rfl]; norm_num)
    exact h

/-- C2 (amended): for every distance `0 < r ≤ seg_size`, the point at
distance `r` along a sector boundary ray (an odd multiple of 22.5°) is
contained in exactly the *two* sectors adjacent to that ray and in none
of the other six: boundary points are never dropped, but — contrary to
the claim — they are double-counted rather than assigned to exactly one
sector. -/
theorem c2_sector_partition_amended (k : Fin 8) (r : ℝ) (h1 : 0 < r) (h2 : r ≤ segSize) :
    (segments k).inside (rayPoint k r) ∧
    (segments (k + 1)).inside (rayPoint k r) ∧
    ∀ j : Fin 8, j ≠ k → j ≠ k + 1 → ¬ (segments j).inside (rayPoint k r) :=
  ⟨ray_mem_self k r h1 h2, ray_mem_succ k r h1 h2,
   fun j hj1 hj2 => ray_not_mem k j r h1 hj1 hj2⟩

/-- C2 witness: the amended theorem evaluated on the ray between sectors
3 and 4 at distance 0.1, with non-membership checked for sector 6. -/
theorem c2_sector_partition_witness :
    (segments 3).inside (rayPoint 3 0.1) ∧
    (segments 4).inside (rayPoint 3 0.1) ∧
    ¬ (segments 6).inside (rayPoint 3 0.1) := by
  have h := c2_sector_partition_amended 3 0.1 (by norm_num)
    (by rw [show segSize = (0.13:ℝ) from rfl]; norm_num)
  exact ⟨h.1, h.2.1, h.2.2 6 (by decide) (by decide)⟩

/-- C9: the paused and options pads are transparent proxies for the
normal-gameplay pad: their `update_buttons` and `draw` agree with the
normal pad's in every state — in particular, with `textbox_mode` active
they assert the FIRE input unconditionally, exactly as the normal pad
does. -/
theorem c9_proxy_pads (tb : Bool) (p : Point) (st : PadState) (s : S) :
    padUpdateButtons GameMode.gmPaused tb p st = padUpdateButtons GameMode.gmNormal tb p st ∧
    padUpdateButtons GameMode.gmOptions tb p st = padUpdateButtons GameMode.gmNormal tb p st ∧
    padDraw GameMode.gmPaused s = padDraw GameMode.gmNormal s ∧
    padDraw GameMode.gmOptions s = padDraw GameMode.gmNormal s ∧
    (tb = true → (padUpdateButtons GameMode.gmPaused tb p st).inputs FIREKEY) := by
  refine ⟨rfl, rfl, rfl, rfl, fun htb => ?_⟩
  subst htb
  show (if FIREKEY = FIREKEY then True else st.inputs FIREKEY)
  rw [if_pos rfl]
  trivial

/-- C9 witness: with textbox mode active, the paused pad's dispatch sets
FIREKEY. -/
theorem c9_proxy_pads_witness :
    (padUpdateButtons GameMode.gmPaused true ⟨0, 0⟩ padZero).inputs FIREKEY :=
  (c9_proxy_pads true ⟨0, 0⟩ padZero sBase).2.2.2.2 rfl

